import Mathlib

/-!
Verification of the aggregation core of the manufacturing report generator
(`src/app.py`).  The input table is modelled as a list of rows together with
the list of columns present in the uploaded CSV; each pandas aggregation
function becomes a Lean function from tables to `Except`-wrapped results,
where `Except.error` models an uncaught Python `KeyError` on a missing
column.  Numeric cells are exact rationals; the IEEE special values that
pandas produces on division by zero (`inf`, `NaN`) are modelled by the
`EVal` type.  Grouping follows pandas `groupby(sort=True)`: the result rows
are indexed by the distinct key values in ascending order.
-/

/-- Comparator on characters: code-point order, as pandas compares the
characters of group keys. -/
def charLe (a b : Char) : Bool :=
  Nat.ble a.val.toNat b.val.toNat

/-- Lexicographic comparator on lists built from an element comparator.
When the heads differ the element comparator decides; equal heads recurse. -/
def lexList {σ : Type} [DecidableEq σ] (el : σ → σ → Bool) : List σ → List σ → Bool
  | [], _ => true
  | _ :: _, [] => false
  | a :: as, b :: bs => if a = b then lexList el as bs else el a b

/-- Comparator on strings: lexicographic on the underlying character lists,
the order pandas uses when sorting string group keys. -/
def strLe (a b : String) : Bool :=
  lexList charLe a.data b.data

/-- Lexicographic comparator on pairs, used for the two-level group keys of
`groupby(["Product Type", "Shift"])`. -/
def pairLe {κ₁ κ₂ : Type} [DecidableEq κ₁] (le₁ : κ₁ → κ₁ → Bool)
    (le₂ : κ₂ → κ₂ → Bool) (a b : κ₁ × κ₂) : Bool :=
  if a.1 = b.1 then le₂ a.2 b.2 else le₁ a.1 b.1

/-- Month keys produced by `df["Date"].dt.to_period("M").astype(str)`:
`some (y, m)` stands for the string "YYYY-MM" (zero-padded year) and `none`
for the string "NaT" that `astype(str)` yields on a missing date.  Since
"N" sorts after every digit, the string order on these keys is: months in
chronological order first, the missing marker last; `monthLe` states that
order directly on the structured keys: `optTopLe` places the missing
marker last, `pairLe Nat.ble Nat.ble` orders (year, month) pairs
chronologically. -/
def optTopLe {κ : Type} (le : κ → κ → Bool) : Option κ → Option κ → Bool
  | none, none => true
  | none, some _ => false
  | some _, none => true
  | some p, some q => le p q

def monthLe : Option (Nat × Nat) → Option (Nat × Nat) → Bool :=
  optTopLe (pairLe Nat.ble Nat.ble)

/-- Insertion of a key into a (strictly) ascending key list, keeping it
ascending and duplicate-free. -/
def insKey {κ : Type} [DecidableEq κ] (le : κ → κ → Bool) (k : κ) : List κ → List κ
  | [] => [k]
  | x :: xs =>
    if k = x then x :: xs
    else if le k x then k :: x :: xs
    else x :: insKey le k xs

/-- Distinct keys of a list in ascending order: the index of a pandas
`groupby(sort=True)` result. -/
def sortedKeys {κ : Type} [DecidableEq κ] (le : κ → κ → Bool) : List κ → List κ
  | [] => []
  | k :: ks => insKey le k (sortedKeys le ks)

/-- Association-list lookup by key (first match). -/
def lookupKey {κ β : Type} [DecidableEq κ] (k : κ) : List (κ × β) → Option β
  | [] => none
  | (k', v) :: rest => if k = k' then some v else lookupKey k rest

/-- Grouped aggregation, the model of `df.groupby(key)[col].agg(...)` with
the default `sort=True`: one output row per distinct key value, keys
ascending, the aggregate applied to the sub-list of rows having that key. -/
def groupAgg {α κ β : Type} [DecidableEq κ] (le : κ → κ → Bool) (key : α → κ)
    (agg : List α → β) (rows : List α) : List (κ × β) :=
  (sortedKeys le (rows.map key)).map fun k =>
    (k, agg (rows.filter fun r => decide (key r = k)))

/-- Extended numeric value: the float results pandas produces, with `inf`
and `nan` for the IEEE special values arising from division by zero.  The
numerators occurring in this program are non-negative, so the only infinity
that arises is positive. -/
inductive EVal : Type
  | fin : Rat → EVal
  | inf : EVal
  | nan : EVal
deriving DecidableEq

namespace EVal

/-- Predicate selecting the missing-value marker. -/
def isNan : EVal → Bool
  | nan => true
  | _ => false

/-- Predicate selecting the infinite value. -/
def isInf : EVal → Bool
  | inf => true
  | _ => false

/-- Finite payload of an extended value, defaulting to zero. -/
def toRat : EVal → Rat
  | fin q => q
  | _ => 0

end EVal

/-- Division as pandas performs it on numeric series: finite quotient when
the divisor is non-zero, `inf` for a non-zero numerator over zero, `nan`
for zero over zero. -/
def divE (a b : Rat) : EVal :=
  if b ≠ 0 then .fin (a / b)
  else if a ≠ 0 then .inf
  else .nan

/-- Multiplication of an extended value by a positive rational constant
(used for the `* 100` scaling of defect rates). -/
def mulE : EVal → Rat → EVal
  | .fin q, c => .fin (q * c)
  | .inf, _ => .inf
  | .nan, _ => .nan

/-- Mean of a list of rationals as pandas computes a column mean: `nan` on
an empty column, otherwise the exact arithmetic mean. -/
def meanR (l : List Rat) : EVal :=
  if l.length = 0 then .nan
  else .fin (l.sum / (l.length : Rat))

/-- Mean of a list of extended values with the pandas `skipna` semantics:
`nan` entries are dropped; if nothing remains the mean is `nan`; an `inf`
entry makes the mean `inf`; otherwise it is the finite arithmetic mean. -/
def meanE (l : List EVal) : EVal :=
  let fs := l.filter fun v => !v.isNan
  if fs.length = 0 then .nan
  else if fs.countP (fun v => v.isInf) ≠ 0 then .inf
  else .fin ((fs.map EVal.toRat).sum / (fs.length : Rat))

/-- Scale-free centered second moment: for columns `xs`, `ys` of equal
length `n` this is `n * Σ xᵢyᵢ - (Σ xᵢ)(Σ yᵢ)`, which is `n²` times the
covariance; the Pearson correlation is `sxy xs ys / √(sxy xs xs * sxy ys ys)`,
so the common positive factor cancels. -/
def sxy (xs ys : List Rat) : Rat :=
  (xs.length : Rat) * (List.zipWith (· * ·) xs ys).sum - xs.sum * ys.sum

/-- Value of one cell of a pandas correlation matrix.  `CorrVal.r s q`
denotes the real number `s * √q` (with `q ≥ 0` and `s ∈ {-1, 0, 1}`), a
square-root-free exact representation of the Pearson coefficient; `nan` is
the result when either column has zero variance (0/0 in float). -/
inductive CorrVal : Type
  | nan : CorrVal
  | r : Int → Rat → CorrVal
deriving DecidableEq

/-- Pearson correlation of two equal-length rational columns, exactly:
`nan` when either centered second moment vanishes, otherwise the value
`sign(sxy) * √(sxy² / (sxx * syy))`. -/
def corrEntry (xs ys : List Rat) : CorrVal :=
  if sxy xs xs * sxy ys ys = 0 then .nan
  else .r (if 0 < sxy xs ys then 1 else if sxy xs ys < 0 then -1 else 0)
    ((sxy xs ys) ^ 2 / (sxy xs xs * sxy ys ys))

/-- Columns of the uploaded CSV that the program reads, plus the derived
Month column. -/
inductive Col : Type
  | date
  | productType
  | shift
  | unitsProduced
  | defects
  | operatorCount
  | productionTimeHours
  | energyConsumption
  | materialCost
  | labourCost
  | month
deriving DecidableEq

/-- One row of the input table after the `pd.to_datetime(..., errors="coerce")`
pass of the main script: `date` is the (year, month) of the parsed Date, or
`none` when the value was missing or unparseable (NaT).  `month` is the
derived Month cell, absent until `generate_monthly_production` writes it. -/
structure Row : Type where
  date : Option (Nat × Nat) := none
  productType : String := ""
  shift : String := ""
  unitsProduced : Nat := 0
  defects : Nat := 0
  operatorCount : Nat := 0
  productionTimeHours : Rat := 0
  energyConsumption : Rat := 0
  materialCost : Rat := 0
  labourCost : Rat := 0
  month : Option (Nat × Nat) := none
deriving DecidableEq

/-- The in-memory DataFrame: its rows and the list of columns present. -/
structure Table : Type where
  rows : List Row
  cols : List Col
deriving DecidableEq

instance {ε α : Type} [DecidableEq ε] [DecidableEq α] : DecidableEq (Except ε α)
  | .error e₁, .error e₂ =>
    if h : e₁ = e₂ then isTrue (by rw [h])
    else isFalse (by intro hc; injection hc; contradiction)
  | .error _, .ok _ => isFalse (by intro hc; cases hc)
  | .ok _, .error _ => isFalse (by intro hc; cases hc)
  | .ok a₁, .ok a₂ =>
    if h : a₁ = a₂ then isTrue (by rw [h])
    else isFalse (by intro hc; injection hc; contradiction)

/-- Error raised by an aggregation: the Python `KeyError` naming the column
that a lookup did not find. -/
inductive AggError : Type
  | keyError : Col → AggError
deriving DecidableEq

/-- Model of `generate_units_by_product`:
`df.groupby("Product Type")["Units Produced"].sum()`. -/
def generate_units_by_product (t : Table) :
    Except AggError (Table × List (String × Nat)) :=
  if Col.productType ∈ t.cols then
    if Col.unitsProduced ∈ t.cols then
      .ok (t, groupAgg strLe (fun r => r.productType)
        (fun g => (g.map (fun r => r.unitsProduced)).sum) t.rows)
    else .error (.keyError .unitsProduced)
  else .error (.keyError .productType)

/-- Model of `generate_avg_defects_by_shift`:
`df.groupby("Shift")["Defects"].mean()`.  Every group is non-empty, so the
mean is the exact rational `sum / count`. -/
def generate_avg_defects_by_shift (t : Table) :
    Except AggError (Table × List (String × Rat)) :=
  if Col.shift ∈ t.cols then
    if Col.defects ∈ t.cols then
      .ok (t, groupAgg strLe (fun r => r.shift)
        (fun g => (g.map (fun r => (r.defects : Rat))).sum / (g.length : Rat)) t.rows)
    else .error (.keyError .defects)
  else .error (.keyError .shift)

/-- Insertion of the derived Month column into the column list (pandas
column assignment: appended if new, overwritten in place otherwise). -/
def insertMonthCol (cs : List Col) : List Col :=
  if Col.month ∈ cs then cs else cs ++ [Col.month]

/-- Table state after the in-place Month assignment
`df["Month"] = df["Date"].dt.to_period("M").astype(str)`: every row gains
its month cell and the column list gains the Month column. -/
def monthlyTab (t : Table) : Table :=
  { rows := t.rows.map fun r => { r with month := r.date },
    cols := insertMonthCol t.cols }

/-- Model of `generate_monthly_production`: the function first mutates the
input frame to `monthlyTab t`, then returns
`df.groupby("Month")["Units Produced"].sum()`.  The Month key is the
structured form of the "YYYY-MM" / "NaT" string (see `monthLe`); note that
rows with an unparseable Date are kept under the "NaT" key, not dropped. -/
def generate_monthly_production (t : Table) :
    Except AggError (Table × List (Option (Nat × Nat) × Nat)) :=
  if Col.date ∈ t.cols then
    if Col.unitsProduced ∈ (monthlyTab t).cols then
      .ok (monthlyTab t, groupAgg monthLe (fun r => r.month)
        (fun g => (g.map (fun r => r.unitsProduced)).sum) (monthlyTab t).rows)
    else .error (.keyError .unitsProduced)
  else .error (.keyError .date)

/-- Model of `generate_avg_cost_summary`: a column-name list is built from
the cost columns actually present, and the mean of each selected column is
emitted under its name.  No lookup can fail, so no error case exists. -/
def generate_avg_cost_summary (t : Table) :
    Except AggError (Table × List (String × EVal)) :=
  .ok (t,
    (if Col.materialCost ∈ t.cols then
      [("Material Cost Per Unit", meanR (t.rows.map fun r => r.materialCost))]
     else []) ++
    (if Col.labourCost ∈ t.cols then
      [("Labour Cost Per Hour", meanR (t.rows.map fun r => r.labourCost))]
     else []))

/-- Model of `generate_energy_vs_production`:
`df[["Energy Consumption kWh", "Units Produced"]].corr()`, reset to rows
labelled by field name.  Each row carries the two cells of its line of the
2x2 Pearson matrix. -/
def generate_energy_vs_production (t : Table) :
    Except AggError (Table × List (String × CorrVal × CorrVal)) :=
  if Col.energyConsumption ∈ t.cols then
    if Col.unitsProduced ∈ t.cols then
      let xs := t.rows.map fun r => r.energyConsumption
      let ys := t.rows.map fun r => (r.unitsProduced : Rat)
      .ok (t,
        [("Energy Consumption kWh", corrEntry xs xs, corrEntry xs ys),
         ("Units Produced", corrEntry ys xs, corrEntry ys ys)])
    else .error (.keyError .unitsProduced)
  else .error (.keyError .energyConsumption)

/-- Model of `generate_defect_rate_by_product`: the two grouped sums share
the same key index (both come from the same frame), so their aligned
quotient times 100 is one grouped aggregation over the product key. -/
def generate_defect_rate_by_product (t : Table) :
    Except AggError (Table × List (String × EVal)) :=
  if Col.productType ∈ t.cols then
    if Col.unitsProduced ∈ t.cols then
      if Col.defects ∈ t.cols then
        .ok (t, groupAgg strLe (fun r => r.productType)
          (fun g => mulE (divE ((g.map (fun r => (r.defects : Rat))).sum)
            ((g.map (fun r => (r.unitsProduced : Rat))).sum)) 100) t.rows)
      else .error (.keyError .defects)
    else .error (.keyError .unitsProduced)
  else .error (.keyError .productType)

/-- Per-record productivity `Units Produced / (Operator Count * Production
Time Hours)`, with the float division-by-zero outcomes. -/
def productivityVal (r : Row) : EVal :=
  divE (r.unitsProduced : Rat) ((r.operatorCount : Rat) * r.productionTimeHours)

/-- Model of `generate_productivity_per_operator`: the function copies the
frame, adds a per-record Productivity column to the copy only, and returns
its mean grouped by (Product Type, Shift); the input table comes back
unchanged.  The required columns are checked in the evaluation order of the
source expression. -/
def generate_productivity_per_operator (t : Table) :
    Except AggError (Table × List ((String × String) × EVal)) :=
  if Col.unitsProduced ∈ t.cols then
    if Col.operatorCount ∈ t.cols then
      if Col.productionTimeHours ∈ t.cols then
        if Col.productType ∈ t.cols then
          if Col.shift ∈ t.cols then
            .ok (t, groupAgg (pairLe strLe strLe) (fun r => (r.productType, r.shift))
              (fun g => meanE (g.map productivityVal)) t.rows)
          else .error (.keyError .shift)
        else .error (.keyError .productType)
      else .error (.keyError .productionTimeHours)
    else .error (.keyError .operatorCount)
  else .error (.keyError .unitsProduced)

/-- The seven report tables collected by the main script. -/
structure Reports : Type where
  units : List (String × Nat)
  defectsByShift : List (String × Rat)
  monthly : List (Option (Nat × Nat) × Nat)
  cost : List (String × EVal)
  energy : List (String × CorrVal × CorrVal)
  defectRate : List (String × EVal)
  productivity : List ((String × String) × EVal)
deriving DecidableEq

/-- Model of the main execution block (lines 82-150 of `src/app.py`): the
Date column is required up front by the `to_datetime` pass, then the seven
aggregations run sequentially against the same frame, each receiving the
frame state the previous one left behind; the first uncaught error aborts
the whole pass with no partial results. -/
def runReportPass (t0 : Table) : Except AggError Reports :=
  if Col.date ∈ t0.cols then do
    let (t1, units) ← generate_units_by_product t0
    let (t2, defects) ← generate_avg_defects_by_shift t1
    let (t3, monthly) ← generate_monthly_production t2
    let (t4, cost) ← generate_avg_cost_summary t3
    let (t5, energy) ← generate_energy_vs_production t4
    let (t6, rate) ← generate_defect_rate_by_product t5
    let (_, prods) ← generate_productivity_per_operator t6
    .ok ⟨units, defects, monthly, cost, energy, rate, prods⟩
  else .error (.keyError .date)

/-- Laws a comparator must satisfy to model the pandas key sort: totality,
transitivity and antisymmetry. -/
structure LawfulCmp {κ : Type} (le : κ → κ → Bool) : Prop where
  total : ∀ a b, le a b = true ∨ le b a = true
  trans : ∀ a b c, le a b = true → le b c = true → le a c = true
  antisymm : ∀ a b, le a b = true → le b a = true → a = b

/-- Strict version of a comparator, used to state that sorted key lists are
strictly ascending (hence duplicate-free). -/
def sLt {κ : Type} (le : κ → κ → Bool) (a b : κ) : Prop :=
  le a b = true ∧ a ≠ b

/-- Total Defects of the rows of a given product, as a rational. -/
def productDefects (t : Table) (p : String) : Rat :=
  ((t.rows.filter fun r => decide (r.productType = p)).map fun r => (r.defects : Rat)).sum

/-- Total Units Produced of the rows of a given product, as a rational. -/
def productUnits (t : Table) (p : String) : Rat :=
  ((t.rows.filter fun r => decide (r.productType = p)).map fun r => (r.unitsProduced : Rat)).sum

/-- Example table of the specification scenario: product "A" with units
[10, 20] and defects [1, 2], product "B" with units [5] and defects [1]. -/
def exTabAB : Table :=
  { rows :=
      [{ productType := "A", unitsProduced := 10, defects := 1 },
       { productType := "A", unitsProduced := 20, defects := 2 },
       { productType := "B", unitsProduced := 5, defects := 1 }],
    cols := [Col.productType, Col.unitsProduced, Col.defects] }

/-- One sheet of the exported workbook: the column header row and the data
rows, cells in a common value type. -/
inductive Cell : Type
  | s : String → Cell
  | n : Nat → Cell
  | q : Rat → Cell
  | e : EVal → Cell
  | c : CorrVal → Cell
  | mon : Option (Nat × Nat) → Cell
deriving DecidableEq

structure Sheet : Type where
  header : List String
  rows : List (List Cell)
deriving DecidableEq

/-- The in-memory export artifact built by the `ExcelWriter` block and
offered by `st.download_button`: named sheets in their written order, the
MIME type and the suggested filename. -/
structure Artifact : Type where
  sheets : List (String × Sheet)
  mime : String
  fileName : String
deriving DecidableEq

/-- Sheet encoding of the UnitsByProduct report (`to_excel(index=False)`:
header then data rows in order). -/
def sheetUnits (rep : List (String × Nat)) : Sheet :=
  { header := ["Product Type", "Units Produced"],
    rows := rep.map fun p => [Cell.s p.1, Cell.n p.2] }

/-- Sheet encoding of the AvgDefectsByShift report. -/
def sheetDefects (rep : List (String × Rat)) : Sheet :=
  { header := ["Shift", "Defects"],
    rows := rep.map fun p => [Cell.s p.1, Cell.q p.2] }

/-- Sheet encoding of the MonthlyProduction report. -/
def sheetMonthly (rep : List (Option (Nat × Nat) × Nat)) : Sheet :=
  { header := ["Month", "Units Produced"],
    rows := rep.map fun p => [Cell.mon p.1, Cell.n p.2] }

/-- Sheet encoding of the AvgCostSummary report (`reset_index` names the
label column "index"). -/
def sheetCost (rep : List (String × EVal)) : Sheet :=
  { header := ["index", "Average Cost"],
    rows := rep.map fun p => [Cell.s p.1, Cell.e p.2] }

/-- Sheet encoding of the EnergyVsProduction correlation matrix. -/
def sheetEnergy (rep : List (String × CorrVal × CorrVal)) : Sheet :=
  { header := ["index", "Energy Consumption kWh", "Units Produced"],
    rows := rep.map fun p => [Cell.s p.1, Cell.c p.2.1, Cell.c p.2.2] }

/-- Sheet encoding of the DefectRateByProduct report. -/
def sheetRate (rep : List (String × EVal)) : Sheet :=
  { header := ["Product Type", "Defect Rate (%)"],
    rows := rep.map fun p => [Cell.s p.1, Cell.e p.2] }

/-- Sheet encoding of the ProductivityPerOperator report. -/
def sheetProductivity (rep : List ((String × String) × EVal)) : Sheet :=
  { header := ["Product Type", "Shift", "Productivity"],
    rows := rep.map fun p => [Cell.s p.1.1, Cell.s p.1.2, Cell.e p.2] }

/-- Model of the export block (lines 155-170 of `src/app.py`): after the
report pass succeeds, the seven report tables are written as sheets in the
fixed order and the buffer is offered with the spreadsheet MIME type and
the fixed suggested filename. -/
def exportReport (t : Table) : Except AggError Artifact :=
  (runReportPass t).map fun r =>
    { sheets :=
        [("Units by Product", sheetUnits r.units),
         ("Defects by Shift", sheetDefects r.defectsByShift),
         ("Monthly Production", sheetMonthly r.monthly),
         ("Cost Summary", sheetCost r.cost),
         ("Energy vs Prod", sheetEnergy r.energy),
         ("Defect Rate (%)", sheetRate r.defectRate),
         ("Productivity", sheetProductivity r.productivity)],
      mime := "application/vnd.openxmlformats-officedocument.spreadsheetml.sheet",
      fileName := "agentic_report.xlsx" }

/-- Row with the derived Month cell cleared, for stating that an
aggregation leaves every original column of every row unchanged. -/
def stripMonth (r : Row) : Row :=
  { r with month := none }

/-- Example table with every CSV column present: products A (two rows,
shifts Day and Night) and B (one row, shift Day), one unparseable date. -/
def exTabFull : Table :=
  { rows :=
      [{ date := some (2021, 1), productType := "A", shift := "Day",
         unitsProduced := 10, defects := 1, operatorCount := 2,
         productionTimeHours := 5, energyConsumption := 3,
         materialCost := 2, labourCost := 7 },
       { date := some (2021, 2), productType := "A", shift := "Night",
         unitsProduced := 20, defects := 2, operatorCount := 4,
         productionTimeHours := 5, energyConsumption := 4,
         materialCost := 3, labourCost := 8 },
       { date := none, productType := "B", shift := "Day",
         unitsProduced := 5, defects := 1, operatorCount := 1,
         productionTimeHours := 2, energyConsumption := 6,
         materialCost := 4, labourCost := 9 }],
    cols := [Col.date, Col.productType, Col.shift, Col.unitsProduced,
      Col.defects, Col.operatorCount, Col.productionTimeHours,
      Col.energyConsumption, Col.materialCost, Col.labourCost] }

/-- The same table with its rows reversed, a concrete row reordering. -/
def exTabFullRev : Table :=
  { rows := exTabFull.rows.reverse, cols := exTabFull.cols }

/-- Two-row table with one parseable date (units 10) and one missing date
(units 5). -/
def exTabNaT : Table :=
  { rows :=
      [{ date := some (2021, 1), unitsProduced := 10 },
       { date := none, unitsProduced := 5 }],
    cols := [Col.date, Col.unitsProduced] }

/-- Table whose Units Produced column is constant, so its centered second
moment (variance) is zero. -/
def exTabConstUnits : Table :=
  { rows :=
      [{ energyConsumption := 1, unitsProduced := 5 },
       { energyConsumption := 2, unitsProduced := 5 }],
    cols := [Col.energyConsumption, Col.unitsProduced] }

/-- Table with every column except Shift: the second aggregation of the
report pass cannot find its grouping key. -/
def noShiftTab : Table :=
  { rows := [{ productType := "A", unitsProduced := 10, defects := 1 }],
    cols := [Col.date, Col.productType, Col.unitsProduced, Col.defects,
      Col.operatorCount, Col.productionTimeHours, Col.energyConsumption,
      Col.materialCost, Col.labourCost] }

/-- Table with a Material Cost column but no Labour Cost column. -/
def exTabNoLabour : Table :=
  { rows :=
      [{ materialCost := 2 }, { materialCost := 4 }],
    cols := [Col.productType, Col.materialCost] }

theorem lawful_charLe : LawfulCmp charLe := by
  constructor
  · intro a b
    simp only [charLe, Nat.ble_eq]
    omega
  · intro a b c
    simp only [charLe, Nat.ble_eq]
    omega
  · intro a b h₁ h₂
    simp only [charLe, Nat.ble_eq] at h₁ h₂
    exact Char.ext (UInt32.toNat.inj (Nat.le_antisymm h₁ h₂))

theorem lawful_lexList {σ : Type} [DecidableEq σ] (el : σ → σ → Bool)
    (h : LawfulCmp el) : LawfulCmp (lexList el) := by
  constructor
  · intro a
    induction a with
    | nil => intro b; left; rfl
    | cons x xs ih =>
      intro b
      cases b with
      | nil => right; rfl
      | cons y ys =>
        simp only [lexList]
        by_cases hxy : x = y
        · subst hxy
          simpa using ih ys
        · have hyx : ¬ y = x := fun hc => hxy hc.symm
          simpa [hxy, hyx] using h.total x y
  · intro a
    induction a with
    | nil => intro b c _ _; rfl
    | cons x xs ih =>
      intro b c h₁ h₂
      cases b with
      | nil => simp [lexList] at h₁
      | cons y ys =>
        cases c with
        | nil => simp [lexList] at h₂
        | cons z zs =>
          simp only [lexList] at h₁ h₂ ⊢
          by_cases hxy : x = y
          · subst hxy
            by_cases hyz : x = z
            · subst hyz
              simp only [if_pos rfl] at h₁ h₂ ⊢
              exact ih ys zs (by simpa using h₁) (by simpa using h₂)
            · simpa [hyz] using by simpa [hyz] using h₂
          · by_cases hyz : y = z
            · subst hyz
              have hxz : ¬ x = y := hxy
              simpa [hxz] using by simpa [hxy] using h₁
            · have e₁ : el x y = true := by simpa [hxy] using h₁
              have e₂ : el y z = true := by simpa [hyz] using h₂
              have hxz : ¬ x = z := by
                intro hc
                subst hc
                exact hxy (h.antisymm x y e₁ e₂)
              simpa [hxz] using h.trans x y z e₁ e₂
  · intro a
    induction a with
    | nil =>
      intro b h₁ h₂
      cases b with
      | nil => rfl
      | cons y ys => simp [lexList] at h₂
    | cons x xs ih =>
      intro b h₁ h₂
      cases b with
      | nil => simp [lexList] at h₁
      | cons y ys =>
        simp only [lexList] at h₁ h₂
        by_cases hxy : x = y
        · subst hxy
          have := ih ys (by simpa using h₁) (by simpa using h₂)
          simp [this]
        · have hyx : ¬ y = x := fun hc => hxy hc.symm
          have e₁ : el x y = true := by simpa [hxy] using h₁
          have e₂ : el y x = true := by simpa [hyx] using h₂
          exact absurd (h.antisymm x y e₁ e₂) hxy

theorem lawful_strLe : LawfulCmp strLe := by
  have hl := lawful_lexList charLe lawful_charLe
  constructor
  · intro a b
    exact hl.total a.data b.data
  · intro a b c h₁ h₂
    exact hl.trans a.data b.data c.data h₁ h₂
  · intro a b h₁ h₂
    cases a with
    | mk da =>
      cases b with
      | mk db =>
        have : da = db := hl.antisymm da db h₁ h₂
        simp [this]


theorem lawful_pairLe {κ₁ κ₂ : Type} [DecidableEq κ₁]
    (le₁ : κ₁ → κ₁ → Bool) (le₂ : κ₂ → κ₂ → Bool)
    (h₁ : LawfulCmp le₁) (h₂ : LawfulCmp le₂) : LawfulCmp (pairLe le₁ le₂) := by
  constructor
  · intro a b
    unfold pairLe
    by_cases hab : a.1 = b.1
    · rw [if_pos hab, if_pos hab.symm]
      exact h₂.total a.2 b.2
    · rw [if_neg hab, if_neg (fun hc => hab hc.symm)]
      exact h₁.total a.1 b.1
  · intro a b c hab hbc
    unfold pairLe at hab hbc ⊢
    by_cases e₁ : a.1 = b.1
    · rw [if_pos e₁] at hab
      by_cases e₂ : b.1 = c.1
      · rw [if_pos e₂] at hbc
        rw [if_pos (e₁.trans e₂)]
        exact h₂.trans a.2 b.2 c.2 hab hbc
      · rw [if_neg e₂] at hbc
        rw [if_neg (fun hc => e₂ (e₁.symm.trans hc)), e₁]
        exact hbc
    · rw [if_neg e₁] at hab
      by_cases e₂ : b.1 = c.1
      · rw [if_pos e₂] at hbc
        rw [if_neg (fun hc => e₁ (hc.trans e₂.symm)), ← e₂]
        exact hab
      · rw [if_neg e₂] at hbc
        have e₃ : ¬ a.1 = c.1 := by
          intro hc
          exact e₁ (h₁.antisymm a.1 b.1 hab (hc ▸ hbc))
        rw [if_neg e₃]
        exact h₁.trans a.1 b.1 c.1 hab hbc
  · intro a b hab hba
    unfold pairLe at hab hba
    by_cases e₁ : a.1 = b.1
    · rw [if_pos e₁] at hab
      rw [if_pos e₁.symm] at hba
      have e₂ := h₂.antisymm a.2 b.2 hab hba
      obtain ⟨a₁, a₂⟩ := a
      obtain ⟨b₁, b₂⟩ := b
      simp only at e₁ e₂
      rw [e₁, e₂]
    · rw [if_neg e₁] at hab
      rw [if_neg (fun hc => e₁ hc.symm)] at hba
      exact absurd (h₁.antisymm a.1 b.1 hab hba) e₁

theorem lawful_natble : LawfulCmp Nat.ble := by
  constructor
  · intro a b
    simp only [Nat.ble_eq]
    omega
  · intro a b c
    simp only [Nat.ble_eq]
    omega
  · intro a b h₁ h₂
    simp only [Nat.ble_eq] at h₁ h₂
    omega

theorem lawful_optTopLe {κ : Type} (le : κ → κ → Bool) (h : LawfulCmp le) :
    LawfulCmp (optTopLe le) := by
  constructor
  · intro a b
    cases a with
    | none =>
      cases b with
      | none => left; rfl
      | some q => right; rfl
    | some p =>
      cases b with
      | none => left; rfl
      | some q => exact h.total p q
  · intro a b c hab hbc
    cases a with
    | none =>
      cases b with
      | none => exact hbc
      | some q =>
        cases hab
    | some p =>
      cases c with
      | none => rfl
      | some r =>
        cases b with
        | none => cases hbc
        | some q => exact h.trans p q r hab hbc
  · intro a b hab hba
    cases a with
    | none =>
      cases b with
      | none => rfl
      | some q => cases hab
    | some p =>
      cases b with
      | none => cases hba
      | some q =>
        rw [h.antisymm p q hab hba]

theorem lawful_monthLe : LawfulCmp monthLe :=
  lawful_optTopLe _ (lawful_pairLe _ _ lawful_natble lawful_natble)

theorem mem_insKey {κ : Type} [DecidableEq κ] (le : κ → κ → Bool) (k a : κ) :
    ∀ l : List κ, a ∈ insKey le k l ↔ a = k ∨ a ∈ l := by
  intro l
  induction l with
  | nil => simp [insKey]
  | cons x xs ih =>
    by_cases hkx : k = x
    · subst hkx
      simp only [insKey, List.mem_cons, if_pos trivial, eq_self_iff_true, ite_true]
      tauto
    · by_cases hle : le k x = true
      · simp only [insKey, if_neg hkx, if_pos hle]
        simp only [List.mem_cons]
      · simp only [insKey, if_neg hkx, if_neg hle]
        simp only [List.mem_cons, ih]
        tauto

theorem pairwise_insKey {κ : Type} [DecidableEq κ] (le : κ → κ → Bool)
    (h : LawfulCmp le) (k : κ) :
    ∀ l : List κ, l.Pairwise (sLt le) → (insKey le k l).Pairwise (sLt le) := by
  intro l
  induction l with
  | nil =>
    intro _
    simp [insKey]
  | cons x xs ih =>
    intro hp
    rcases List.pairwise_cons.mp hp with ⟨hx, hxs⟩
    by_cases hkx : k = x
    · subst hkx
      simpa [insKey] using hp
    · by_cases hle : le k x = true
      · simp only [insKey, if_neg hkx, if_pos hle]
        refine List.pairwise_cons.mpr ⟨?_, hp⟩
        intro y hy
        rcases List.mem_cons.mp hy with rfl | hy'
        · exact ⟨hle, hkx⟩
        · rcases hx y hy' with ⟨hxy, hne⟩
          refine ⟨h.trans k x y hle hxy, ?_⟩
          intro hc
          subst hc
          exact hkx (h.antisymm k x hle hxy)
      · have hxk : le x k = true := (h.total k x).resolve_left hle
        simp only [insKey, if_neg hkx, if_neg hle]
        refine List.pairwise_cons.mpr ⟨?_, ih hxs⟩
        intro y hy
        rcases (mem_insKey le k y xs).mp hy with rfl | hy'
        · exact ⟨hxk, fun hc => hkx hc.symm⟩
        · exact hx y hy'

theorem pairwise_sortedKeys {κ : Type} [DecidableEq κ] (le : κ → κ → Bool)
    (h : LawfulCmp le) (ks : List κ) : (sortedKeys le ks).Pairwise (sLt le) := by
  induction ks with
  | nil => simp [sortedKeys]
  | cons k ks ih => exact pairwise_insKey le h k _ ih

theorem mem_sortedKeys {κ : Type} [DecidableEq κ] (le : κ → κ → Bool) (a : κ) :
    ∀ ks : List κ, a ∈ sortedKeys le ks ↔ a ∈ ks := by
  intro ks
  induction ks with
  | nil => simp [sortedKeys]
  | cons k ks ih =>
    simp only [sortedKeys, mem_insKey, ih, List.mem_cons]

theorem nodup_sortedKeys {κ : Type} [DecidableEq κ] (le : κ → κ → Bool)
    (h : LawfulCmp le) (ks : List κ) : (sortedKeys le ks).Nodup :=
  (pairwise_sortedKeys le h ks).imp fun hab => hab.2

theorem eq_of_pairwise_of_mem_iff {κ : Type} (le : κ → κ → Bool) (hcmp : LawfulCmp le) :
    ∀ l₁ l₂ : List κ, l₁.Pairwise (sLt le) → l₂.Pairwise (sLt le) →
      (∀ a, a ∈ l₁ ↔ a ∈ l₂) → l₁ = l₂ := by
  intro l₁
  induction l₁ with
  | nil =>
    intro l₂ _ _ hm
    cases l₂ with
    | nil => rfl
    | cons y ys => exact absurd ((hm y).mpr (List.mem_cons_self y ys)) (by simp)
  | cons x xs ih =>
    intro l₂ hp₁ hp₂ hm
    cases l₂ with
    | nil => exact absurd ((hm x).mp (List.mem_cons_self x xs)) (by simp)
    | cons y ys =>
      rcases List.pairwise_cons.mp hp₁ with ⟨hx, hxs⟩
      rcases List.pairwise_cons.mp hp₂ with ⟨hy, hys⟩
      have hxy : x = y := by
        rcases List.mem_cons.mp ((hm x).mp (List.mem_cons_self x xs)) with h | h
        · exact h
        · rcases List.mem_cons.mp ((hm y).mpr (List.mem_cons_self y ys)) with h' | h'
          · exact h'.symm
          · rcases hy x h with ⟨hyx, _⟩
            rcases hx y h' with ⟨hxy', hnex⟩
            exact absurd (hcmp.antisymm x y hxy' hyx) hnex
      subst hxy
      have hmt : ∀ a, a ∈ xs ↔ a ∈ ys := by
        intro a
        constructor
        · intro ha
          rcases List.mem_cons.mp ((hm a).mp (List.mem_cons_of_mem x ha)) with h | h
          · exact absurd h.symm (hx a ha).2
          · exact h
        · intro ha
          rcases List.mem_cons.mp ((hm a).mpr (List.mem_cons_of_mem x ha)) with h | h
          · exact absurd h.symm (hy a ha).2
          · exact h
      rw [ih ys hxs hys hmt]

theorem sortedKeys_perm {κ : Type} [DecidableEq κ] (le : κ → κ → Bool)
    (h : LawfulCmp le) {ks₁ ks₂ : List κ} (hp : ks₁.Perm ks₂) :
    sortedKeys le ks₁ = sortedKeys le ks₂ := by
  refine eq_of_pairwise_of_mem_iff le h _ _
    (pairwise_sortedKeys le h ks₁) (pairwise_sortedKeys le h ks₂) ?_
  intro a
  rw [mem_sortedKeys, mem_sortedKeys]
  exact hp.mem_iff

theorem lookupKey_map {κ β : Type} [DecidableEq κ] (f : κ → β) (k : κ) :
    ∀ ks : List κ, ks.Nodup → k ∈ ks →
      lookupKey k (ks.map fun x => (x, f x)) = some (f k) := by
  intro ks
  induction ks with
  | nil => intro _ hk; cases hk
  | cons x xs ih =>
    intro hnd hk
    rcases List.nodup_cons.mp hnd with ⟨_, hnd'⟩
    by_cases hkx : k = x
    · subst hkx
      simp [lookupKey]
    · have hk' : k ∈ xs := (List.mem_cons.mp hk).resolve_left hkx
      simpa [lookupKey, hkx] using ih hnd' hk'

theorem sum_map_ite_zero_of_not_mem {κ : Type} [DecidableEq κ] (k₀ : κ) (c : Nat) :
    ∀ ks : List κ, k₀ ∉ ks → (ks.map fun k => if k₀ = k then c else 0).sum = 0 := by
  intro ks
  induction ks with
  | nil => intro _; rfl
  | cons x xs ih =>
    intro hk
    have hx : ¬ k₀ = x := fun hc => hk (hc ▸ List.mem_cons_self x xs)
    have hxs : k₀ ∉ xs := fun hc => hk (List.mem_cons_of_mem x hc)
    simp [hx, ih hxs]

theorem sum_map_ite_zero {κ : Type} [DecidableEq κ] (k₀ : κ) (c : Nat) :
    ∀ ks : List κ, ks.Nodup → k₀ ∈ ks →
      (ks.map fun k => if k₀ = k then c else 0).sum = c := by
  intro ks
  induction ks with
  | nil => intro _ hk; cases hk
  | cons x xs ih =>
    intro hnd hk
    rcases List.nodup_cons.mp hnd with ⟨hx, hnd'⟩
    by_cases hkx : k₀ = x
    · subst hkx
      simp [sum_map_ite_zero_of_not_mem k₀ c xs hx]
    · have hk' : k₀ ∈ xs := (List.mem_cons.mp hk).resolve_left hkx
      simp [hkx, ih hnd' hk']

theorem sum_map_add_split {κ : Type} (g₁ g₂ : κ → Nat) :
    ∀ ks : List κ, (ks.map fun k => g₁ k + g₂ k).sum
      = (ks.map g₁).sum + (ks.map g₂).sum := by
  intro ks
  induction ks with
  | nil => rfl
  | cons x xs ih =>
    simp only [List.map_cons, List.sum_cons, ih]
    omega

/-- Partition property of grouping: summing a per-group sum over a
duplicate-free key list covering all rows gives the sum over all rows. -/
theorem sum_fiber {α κ : Type} [DecidableEq κ] (key : α → κ) (f : α → Nat) :
    ∀ (rows : List α) (ks : List κ), ks.Nodup → (∀ a ∈ rows, key a ∈ ks) →
      (ks.map fun k => ((rows.filter fun r => decide (key r = k)).map f).sum).sum
        = (rows.map f).sum := by
  intro rows
  induction rows with
  | nil =>
    intro ks _ _
    simp
  | cons a rows ih =>
    intro ks hnd hcov
    have hka : key a ∈ ks := hcov a (List.mem_cons_self a rows)
    have hcov' : ∀ r ∈ rows, key r ∈ ks := fun r hr => hcov r (List.mem_cons_of_mem a hr)
    have hstep : ∀ k : κ,
        (((a :: rows).filter fun r => decide (key r = k)).map f).sum
          = (if key a = k then f a else 0)
            + ((rows.filter fun r => decide (key r = k)).map f).sum := by
      intro k
      by_cases hak : key a = k
      · simp [List.filter_cons, hak]
      · simp [List.filter_cons, hak]
    calc (ks.map fun k => (((a :: rows).filter fun r => decide (key r = k)).map f).sum).sum
        = (ks.map fun k => (if key a = k then f a else 0)
            + ((rows.filter fun r => decide (key r = k)).map f).sum).sum := by
          exact congrArg List.sum (List.map_congr_left fun k _ => hstep k)
      _ = (ks.map fun k => if key a = k then f a else 0).sum
            + (ks.map fun k => ((rows.filter fun r => decide (key r = k)).map f).sum).sum :=
          sum_map_add_split _ _ ks
      _ = f a + (rows.map f).sum := by
          rw [sum_map_ite_zero (key a) (f a) ks hnd hka, ih ks hnd hcov']
      _ = ((a :: rows).map f).sum := by simp

theorem groupAgg_map_fst {α κ β : Type} [DecidableEq κ] (le : κ → κ → Bool)
    (key : α → κ) (agg : List α → β) (rows : List α) :
    (groupAgg le key agg rows).map Prod.fst = sortedKeys le (rows.map key) := by
  rw [groupAgg, List.map_map]
  exact List.map_id _

/-- Summing the per-group sums of a grouped aggregation recovers the sum of
the aggregated field over every row of the table. -/
theorem groupAgg_sum {α κ : Type} [DecidableEq κ] (le : κ → κ → Bool)
    (h : LawfulCmp le) (key : α → κ) (f : α → Nat) (rows : List α) :
    ((groupAgg le key (fun g => (g.map f).sum) rows).map Prod.snd).sum
      = (rows.map f).sum := by
  unfold groupAgg
  rw [List.map_map]
  refine sum_fiber key f rows (sortedKeys le (rows.map key))
    (nodup_sortedKeys le h _) ?_
  intro a ha
  rw [mem_sortedKeys]
  exact List.mem_map_of_mem key ha

/-- Looking up a key that occurs in the table in the grouped result returns
the aggregate of precisely the rows bearing that key. -/
theorem groupAgg_lookup {α κ β : Type} [DecidableEq κ] (le : κ → κ → Bool)
    (h : LawfulCmp le) (key : α → κ) (agg : List α → β) (rows : List α)
    (k : κ) (hk : k ∈ rows.map key) :
    lookupKey k (groupAgg le key agg rows)
      = some (agg (rows.filter fun r => decide (key r = k))) := by
  unfold groupAgg
  exact lookupKey_map (fun k => agg (rows.filter fun r => decide (key r = k))) k
    (sortedKeys le (rows.map key)) (nodup_sortedKeys le h _)
    ((mem_sortedKeys le k _).mpr hk)

/-- Grouped aggregation is invariant under permutation of the rows whenever
the aggregate itself is permutation-invariant. -/
theorem groupAgg_perm {α κ β : Type} [DecidableEq κ] (le : κ → κ → Bool)
    (h : LawfulCmp le) (key : α → κ) (agg : List α → β)
    {rows₁ rows₂ : List α} (hp : rows₁.Perm rows₂)
    (hagg : ∀ g₁ g₂ : List α, g₁.Perm g₂ → agg g₁ = agg g₂) :
    groupAgg le key agg rows₁ = groupAgg le key agg rows₂ := by
  unfold groupAgg
  rw [sortedKeys_perm le h (hp.map key)]
  refine List.map_congr_left ?_
  intro k _
  exact congrArg (fun g => (k, g)) (hagg _ _ (hp.filter _))

/-- The skipna mean is invariant under permutation of its inputs. -/
theorem meanE_perm {l₁ l₂ : List EVal} (hp : l₁.Perm l₂) : meanE l₁ = meanE l₂ := by
  have hf : (l₁.filter fun v => !v.isNan).Perm (l₂.filter fun v => !v.isNan) :=
    hp.filter _
  simp only [meanE]
  rw [hf.length_eq, hf.countP_eq, (hf.map EVal.toRat).sum_eq]

/-- C1: for every input table containing the Product Type and Units
Produced columns, the per-product totals of UnitsByProduct sum to the total
Units Produced of the whole table; and on the scenario table with products
"A" (units [10, 20]) and "B" (units [5]) the result is A ↦ 30, B ↦ 5. -/
theorem C1_units_by_product_total :
    (∀ t : Table, Col.productType ∈ t.cols → Col.unitsProduced ∈ t.cols →
      ∃ rep : List (String × Nat),
        generate_units_by_product t = .ok (t, rep)
          ∧ (rep.map Prod.snd).sum = (t.rows.map fun r => r.unitsProduced).sum)
      ∧ generate_units_by_product exTabAB = .ok (exTabAB, [("A", 30), ("B", 5)]) := by
  constructor
  · intro t h₁ h₂
    refine ⟨groupAgg strLe (fun r => r.productType)
        (fun g => (g.map fun r => r.unitsProduced).sum) t.rows, ?_,
      groupAgg_sum strLe lawful_strLe (fun r => r.productType)
        (fun r => r.unitsProduced) t.rows⟩
    simp [generate_units_by_product, h₁, h₂]
  · simp [generate_units_by_product, exTabAB, groupAgg, sortedKeys, insKey,
      strLe, lexList, charLe]

theorem C1_units_by_product_total_witness :
    Col.productType ∈ exTabAB.cols ∧ Col.unitsProduced ∈ exTabAB.cols ∧
      (∃ rep : List (String × Nat),
        generate_units_by_product exTabAB = .ok (exTabAB, rep)
          ∧ (rep.map Prod.snd).sum
              = (exTabAB.rows.map fun r => r.unitsProduced).sum) :=
  ⟨by decide, by decide,
    C1_units_by_product_total.1 exTabAB (by decide) (by decide)⟩

/-- C2: for every input table containing Product Type, Units Produced and
Defects, DefectRateByProduct succeeds and maps each occurring product to
(sum of Defects / sum of Units Produced) x 100; for a product with zero
total Units Produced the entry is the non-finite float sentinel pandas
produces (`nan` when total Defects is also zero, `inf` otherwise), not an
error; and on the scenario table the rates are A ↦ 10, B ↦ 20. -/
theorem C2_defect_rate_by_product :
    (∀ t : Table, Col.productType ∈ t.cols → Col.unitsProduced ∈ t.cols →
        Col.defects ∈ t.cols →
      ∃ rep : List (String × EVal),
        generate_defect_rate_by_product t = .ok (t, rep)
          ∧ (∀ p ∈ t.rows.map fun r => r.productType,
              lookupKey p rep
                = some (mulE (divE (productDefects t p) (productUnits t p)) 100))
          ∧ (∀ p ∈ t.rows.map fun r => r.productType,
              productUnits t p = 0 →
                lookupKey p rep = some EVal.nan ∨ lookupKey p rep = some EVal.inf))
      ∧ generate_defect_rate_by_product exTabAB
          = .ok (exTabAB, [("A", .fin 10), ("B", .fin 20)]) := by
  constructor
  · intro t h₁ h₂ h₃
    refine ⟨groupAgg strLe (fun r => r.productType)
        (fun g => mulE (divE ((g.map fun r => (r.defects : Rat)).sum)
          ((g.map fun r => (r.unitsProduced : Rat)).sum)) 100) t.rows, ?_, ?_, ?_⟩
    · simp [generate_defect_rate_by_product, h₁, h₂, h₃]
    · intro p hp
      exact groupAgg_lookup strLe lawful_strLe _ _ t.rows p hp
    · intro p hp hz
      rw [groupAgg_lookup strLe lawful_strLe _ _ t.rows p hp]
      have hu : ((t.rows.filter fun r => decide (r.productType = p)).map
          fun r => (r.unitsProduced : Rat)).sum = 0 := hz
      rw [hu]
      by_cases hd : ((t.rows.filter fun r => decide (r.productType = p)).map
          fun r => (r.defects : Rat)).sum = 0
      · left
        simp [divE, mulE, hd]
      · right
        simp [divE, mulE, hd]
  · simp [generate_defect_rate_by_product, exTabAB, groupAgg, sortedKeys, insKey,
      strLe, lexList, charLe, mulE, divE]
    norm_num

theorem C2_defect_rate_by_product_witness :
    Col.productType ∈ exTabAB.cols ∧ Col.unitsProduced ∈ exTabAB.cols ∧
      Col.defects ∈ exTabAB.cols ∧
      (∃ rep : List (String × EVal),
        generate_defect_rate_by_product exTabAB = .ok (exTabAB, rep)
          ∧ (∀ p ∈ exTabAB.rows.map fun r => r.productType,
              lookupKey p rep
                = some (mulE (divE (productDefects exTabAB p)
                    (productUnits exTabAB p)) 100))
          ∧ (∀ p ∈ exTabAB.rows.map fun r => r.productType,
              productUnits exTabAB p = 0 →
                lookupKey p rep = some EVal.nan ∨ lookupKey p rep = some EVal.inf)) :=
  ⟨by decide, by decide, by decide,
    C2_defect_rate_by_product.1 exTabAB (by decide) (by decide) (by decide)⟩

/-- C5: for every input table containing Shift and Defects, the
AvgDefectsByShift entry of each occurring shift value is the arithmetic
mean of the Defects of exactly the rows with that shift. -/
theorem C5_avg_defects_by_shift (t : Table)
    (h₁ : Col.shift ∈ t.cols) (h₂ : Col.defects ∈ t.cols) :
    ∃ rep : List (String × Rat),
      generate_avg_defects_by_shift t = .ok (t, rep)
        ∧ ∀ s ∈ t.rows.map fun r => r.shift,
            lookupKey s rep = some
              (((t.rows.filter fun r => decide (r.shift = s)).map
                  fun r => (r.defects : Rat)).sum
                / ((t.rows.filter fun r => decide (r.shift = s)).length : Rat)) := by
  refine ⟨groupAgg strLe (fun r => r.shift)
      (fun g => (g.map fun r => (r.defects : Rat)).sum / (g.length : Rat)) t.rows,
    ?_, ?_⟩
  · simp [generate_avg_defects_by_shift, h₁, h₂]
  · intro s hs
    exact groupAgg_lookup strLe lawful_strLe _ _ t.rows s hs

theorem C5_avg_defects_by_shift_witness :
    Col.shift ∈ exTabFull.cols ∧ Col.defects ∈ exTabFull.cols ∧
      (∃ rep : List (String × Rat),
        generate_avg_defects_by_shift exTabFull = .ok (exTabFull, rep)
          ∧ ∀ s ∈ exTabFull.rows.map fun r => r.shift,
              lookupKey s rep = some
                (((exTabFull.rows.filter fun r => decide (r.shift = s)).map
                    fun r => (r.defects : Rat)).sum
                  / ((exTabFull.rows.filter fun r => decide (r.shift = s)).length : Rat))) :=
  ⟨by decide, by decide, C5_avg_defects_by_shift exTabFull (by decide) (by decide)⟩

theorem mem_insertMonthCol {c : Col} {cs : List Col} (h : c ∈ cs) :
    c ∈ insertMonthCol cs := by
  unfold insertMonthCol
  split_ifs
  · exact h
  · exact List.mem_append_left _ h

/-- C3 counterexample: on the two-row table with one parseable date (units
10) and one missing date (units 5), MonthlyProduction keeps the missing
date row under the "NaT" key, so the sum of its totals is 15, whereas the
sum of Units Produced over the rows with a parseable Date is 10: the claim
that the two sums agree is false at this input. -/
theorem C3_monthly_production_counterexample :
    (generate_monthly_production exTabNaT).map (fun p => (p.2.map Prod.snd).sum)
        = .ok 15
      ∧ ((exTabNaT.rows.filter fun r => r.date.isSome).map
          fun r => r.unitsProduced).sum = 10
      ∧ (15 : Nat) ≠ 10 := by
  refine ⟨?_, by decide, by decide⟩
  decide

/-- C3 amended: for every input table containing Date and Units Produced,
the rows of MonthlyProduction are strictly ascending in the month key —
chronological for parseable months, with the "NaT" key of unparseable
dates sorting last — and the sum of their totals equals the sum of Units
Produced over ALL rows of the table (rows with unparseable dates are kept,
grouped under the "NaT" key, not dropped). -/
theorem C3_monthly_production_amended (t : Table)
    (h₁ : Col.date ∈ t.cols) (h₂ : Col.unitsProduced ∈ t.cols) :
    ∃ (t' : Table) (rep : List (Option (Nat × Nat) × Nat)),
      generate_monthly_production t = .ok (t', rep)
        ∧ (rep.map Prod.fst).Pairwise (sLt monthLe)
        ∧ (rep.map Prod.snd).sum = (t.rows.map fun r => r.unitsProduced).sum := by
  refine ⟨monthlyTab t,
    groupAgg monthLe (fun r => r.month)
      (fun g => (g.map fun r => r.unitsProduced).sum) (monthlyTab t).rows,
    ?_, ?_, ?_⟩
  · simp only [generate_monthly_production, if_pos h₁]
    have hm : Col.unitsProduced ∈ (monthlyTab t).cols := mem_insertMonthCol h₂
    rw [if_pos hm]
  · rw [groupAgg_map_fst]
    exact pairwise_sortedKeys monthLe lawful_monthLe _
  · rw [groupAgg_sum monthLe lawful_monthLe _ _ _]
    show ((t.rows.map fun r => { r with month := r.date }).map
      fun r => r.unitsProduced).sum = _
    rw [List.map_map]
    rfl

theorem C3_monthly_production_amended_witness :
    Col.date ∈ exTabNaT.cols ∧ Col.unitsProduced ∈ exTabNaT.cols ∧
      (∃ (t' : Table) (rep : List (Option (Nat × Nat) × Nat)),
        generate_monthly_production exTabNaT = .ok (t', rep)
          ∧ (rep.map Prod.fst).Pairwise (sLt monthLe)
          ∧ (rep.map Prod.snd).sum
              = (exTabNaT.rows.map fun r => r.unitsProduced).sum) :=
  ⟨by decide, by decide,
    C3_monthly_production_amended exTabNaT (by decide) (by decide)⟩

/-- C4: on a table lacking the Shift column, the report pass of the main
script does not signal a `MissingColumnError` naming column and function
and continue with the other aggregations; it aborts at the second
aggregation with the bare `KeyError` for Shift and returns no results at
all, even though the first aggregation on its own succeeds. -/
theorem C4_missing_column_aborts_pass :
    runReportPass noShiftTab = .error (.keyError Col.shift)
      ∧ (generate_units_by_product noShiftTab).isOk = true := by
  constructor
  · simp [runReportPass, generate_units_by_product, generate_avg_defects_by_shift,
      noShiftTab, Except.bind, bind]
  · simp [generate_units_by_product, noShiftTab, Except.isOk, Except.toBool]

/-- C6: ProductivityPerOperator is invariant under any reordering of the
input rows: on two tables with the same columns whose row lists are
permutations of each other, the report component of the result is
identical (same (Product Type, Shift) keys in the same order, same mean
productivity values). -/
theorem C6_productivity_reorder_invariant (t₁ t₂ : Table)
    (hcols : t₂.cols = t₁.cols) (hrows : t₁.rows.Perm t₂.rows)
    (h₁ : Col.productType ∈ t₁.cols) (h₂ : Col.shift ∈ t₁.cols)
    (h₃ : Col.unitsProduced ∈ t₁.cols) (h₄ : Col.operatorCount ∈ t₁.cols)
    (h₅ : Col.productionTimeHours ∈ t₁.cols) :
    (generate_productivity_per_operator t₁).map Prod.snd
      = (generate_productivity_per_operator t₂).map Prod.snd := by
  have hrep : groupAgg (pairLe strLe strLe) (fun r => (r.productType, r.shift))
      (fun g => meanE (g.map productivityVal)) t₁.rows
      = groupAgg (pairLe strLe strLe) (fun r => (r.productType, r.shift))
        (fun g => meanE (g.map productivityVal)) t₂.rows := by
    refine groupAgg_perm (pairLe strLe strLe)
      (lawful_pairLe strLe strLe lawful_strLe lawful_strLe) _ _ hrows ?_
    intro g₁ g₂ hg
    exact meanE_perm (hg.map productivityVal)
  simp only [generate_productivity_per_operator, hcols, if_pos h₁, if_pos h₂,
    if_pos h₃, if_pos h₄, if_pos h₅, Except.map, hrep]

theorem C6_productivity_reorder_invariant_witness :
    exTabFullRev.cols = exTabFull.cols ∧
      Col.productType ∈ exTabFull.cols ∧ Col.shift ∈ exTabFull.cols ∧
      Col.unitsProduced ∈ exTabFull.cols ∧ Col.operatorCount ∈ exTabFull.cols ∧
      Col.productionTimeHours ∈ exTabFull.cols ∧
      (generate_productivity_per_operator exTabFull).map Prod.snd
        = (generate_productivity_per_operator exTabFullRev).map Prod.snd :=
  ⟨rfl, by decide, by decide, by decide, by decide, by decide,
    C6_productivity_reorder_invariant exTabFull exTabFullRev rfl
      (List.reverse_perm exTabFull.rows).symm (by decide) (by decide)
      (by decide) (by decide) (by decide)⟩

/-- C7: AvgCostSummary never fails: on every table the result is `ok`, and
when the Labour Cost Per Hour column is absent the result consists of the
Material Cost Per Unit row alone (its mean) when that column is present,
and is empty when both cost columns are absent. -/
theorem C7_avg_cost_summary_never_fails (t : Table) :
    (generate_avg_cost_summary t).isOk = true
      ∧ (Col.labourCost ∉ t.cols →
          generate_avg_cost_summary t = .ok (t,
            if Col.materialCost ∈ t.cols then
              [("Material Cost Per Unit", meanR (t.rows.map fun r => r.materialCost))]
            else [])) := by
  constructor
  · rfl
  · intro hl
    by_cases hm : Col.materialCost ∈ t.cols
    · simp [generate_avg_cost_summary, hm, hl]
    · simp [generate_avg_cost_summary, hm, hl]

theorem C7_avg_cost_summary_never_fails_witness :
    Col.labourCost ∉ exTabNoLabour.cols ∧
      (generate_avg_cost_summary exTabNoLabour).isOk = true ∧
      generate_avg_cost_summary exTabNoLabour = .ok (exTabNoLabour,
        if Col.materialCost ∈ exTabNoLabour.cols then
          [("Material Cost Per Unit",
            meanR (exTabNoLabour.rows.map fun r => r.materialCost))]
        else []) :=
  ⟨by decide, (C7_avg_cost_summary_never_fails exTabNoLabour).1,
    (C7_avg_cost_summary_never_fails exTabNoLabour).2 (by decide)⟩

theorem sq_sum_le_len_mul_sum_sq :
    ∀ l : List Rat, l.sum ^ 2 ≤ (l.length : Rat) * (l.map fun x => x * x).sum := by
  intro l
  induction l with
  | nil => simp
  | cons x xs ih =>
    cases xs with
    | nil =>
      simp only [List.sum_cons, List.sum_nil, List.map_cons, List.map_nil,
        List.length_cons, List.length_nil]
      push_cast
      nlinarith [sq_nonneg x]
    | cons y ys =>
      have hc : (0 : Rat) ≤ (ys.length : Rat) := Nat.cast_nonneg _
      have hn1 : (1 : Rat) ≤ (ys.length : Rat) + 1 := by linarith
      simp only [List.sum_cons, List.map_cons, List.length_cons] at ih ⊢
      push_cast at ih ⊢
      have hd : (0 : Rat) ≤ ((ys.length : Rat) + 1)
          * (y * y + (List.map (fun x => x * x) ys).sum) - (y + ys.sum) ^ 2 := by
        linarith
      have h2 : (0 : Rat) ≤ (((ys.length : Rat) + 1) * x - (y + ys.sum)) ^ 2 :=
        sq_nonneg _
      have h3 : (0 : Rat) ≤ (1 + ((ys.length : Rat) + 1))
          * (((ys.length : Rat) + 1) * (y * y + (List.map (fun x => x * x) ys).sum)
            - (y + ys.sum) ^ 2) :=
        mul_nonneg (by linarith) hd
      nlinarith [h2, h3, hn1]

/-- Centered second moment of a column with itself is non-negative. -/
theorem sxx_nonneg (xs : List Rat) : 0 ≤ sxy xs xs := by
  unfold sxy
  rw [List.zipWith_same]
  have h := sq_sum_le_len_mul_sum_sq xs
  nlinarith [h]

theorem sxy_comm {xs ys : List Rat} (hlen : xs.length = ys.length) :
    sxy xs ys = sxy ys xs := by
  unfold sxy
  rw [List.zipWith_comm_of_comm _ mul_comm, hlen]
  ring

/-- Diagonal entry of the correlation matrix: exactly 1 when the column has
non-zero centered second moment. -/
theorem corrEntry_diag {xs : List Rat} (h : sxy xs xs ≠ 0) :
    corrEntry xs xs = CorrVal.r 1 1 := by
  have hpos : 0 < sxy xs xs := lt_of_le_of_ne (sxx_nonneg xs) (Ne.symm h)
  unfold corrEntry
  rw [if_neg (mul_ne_zero h h), if_pos hpos]
  congr 1
  rw [sq]
  exact div_self (mul_ne_zero h h)

theorem corrEntry_symm {xs ys : List Rat} (hlen : xs.length = ys.length) :
    corrEntry xs ys = corrEntry ys xs := by
  unfold corrEntry
  rw [sxy_comm hlen, mul_comm (sxy xs xs) (sxy ys ys)]

/-- C9 counterexample: on the table with energy [1, 2] and constant units
[5, 5], the Units Produced column has zero variance, so its diagonal entry
of the correlation matrix is NaN (the float 0/0), not 1: the matrix does
not have a unit diagonal on every input. -/
theorem C9_energy_vs_production_counterexample :
    generate_energy_vs_production exTabConstUnits
        = .ok (exTabConstUnits,
            [("Energy Consumption kWh", CorrVal.r 1 1, CorrVal.nan),
             ("Units Produced", CorrVal.nan, CorrVal.nan)])
      ∧ CorrVal.nan ≠ CorrVal.r 1 1 := by
  constructor
  · simp [generate_energy_vs_production, exTabConstUnits, corrEntry, sxy]
    norm_num
  · decide

/-- C9 amended: for every input table containing the two columns, the
result is the 2x2 Pearson matrix of the columns, which is symmetric
(the two off-diagonal cells are equal); each diagonal cell equals 1 when
the corresponding column has non-zero variance and is NaN when its
variance is zero (so the diagonal is a unit diagonal only for columns of
non-zero variance). -/
theorem C9_energy_vs_production_amended (t : Table)
    (h₁ : Col.energyConsumption ∈ t.cols) (h₂ : Col.unitsProduced ∈ t.cols) :
    ∃ c11 c12 c21 c22 : CorrVal,
      generate_energy_vs_production t = .ok (t,
        [("Energy Consumption kWh", c11, c12), ("Units Produced", c21, c22)])
        ∧ c12 = c21
        ∧ (sxy (t.rows.map fun r => r.energyConsumption)
              (t.rows.map fun r => r.energyConsumption) ≠ 0 → c11 = CorrVal.r 1 1)
        ∧ (sxy (t.rows.map fun r => r.energyConsumption)
              (t.rows.map fun r => r.energyConsumption) = 0 → c11 = CorrVal.nan)
        ∧ (sxy (t.rows.map fun r => (r.unitsProduced : Rat))
              (t.rows.map fun r => (r.unitsProduced : Rat)) ≠ 0 → c22 = CorrVal.r 1 1)
        ∧ (sxy (t.rows.map fun r => (r.unitsProduced : Rat))
              (t.rows.map fun r => (r.unitsProduced : Rat)) = 0 → c22 = CorrVal.nan) := by
  set xs := t.rows.map fun r => r.energyConsumption with hxs
  set ys := t.rows.map fun r => (r.unitsProduced : Rat) with hys
  have hlen : xs.length = ys.length := by
    rw [hxs, hys, List.length_map, List.length_map]
  refine ⟨corrEntry xs xs, corrEntry xs ys, corrEntry ys xs, corrEntry ys ys,
    ?_, corrEntry_symm hlen, ?_, ?_, ?_, ?_⟩
  · simp [generate_energy_vs_production, h₁, h₂]
  · intro h
    exact corrEntry_diag h
  · intro h
    unfold corrEntry
    rw [if_pos (by rw [h]; ring)]
  · intro h
    exact corrEntry_diag h
  · intro h
    unfold corrEntry
    rw [if_pos (by rw [h]; ring)]

theorem C9_energy_vs_production_amended_witness :
    Col.energyConsumption ∈ exTabFull.cols ∧ Col.unitsProduced ∈ exTabFull.cols ∧
      (∃ c11 c12 c21 c22 : CorrVal,
        generate_energy_vs_production exTabFull = .ok (exTabFull,
          [("Energy Consumption kWh", c11, c12), ("Units Produced", c21, c22)])
          ∧ c12 = c21
          ∧ (sxy (exTabFull.rows.map fun r => r.energyConsumption)
                (exTabFull.rows.map fun r => r.energyConsumption) ≠ 0 →
              c11 = CorrVal.r 1 1)
          ∧ (sxy (exTabFull.rows.map fun r => r.energyConsumption)
                (exTabFull.rows.map fun r => r.energyConsumption) = 0 →
              c11 = CorrVal.nan)
          ∧ (sxy (exTabFull.rows.map fun r => (r.unitsProduced : Rat))
                (exTabFull.rows.map fun r => (r.unitsProduced : Rat)) ≠ 0 →
              c22 = CorrVal.r 1 1)
          ∧ (sxy (exTabFull.rows.map fun r => (r.unitsProduced : Rat))
                (exTabFull.rows.map fun r => (r.unitsProduced : Rat)) = 0 →
              c22 = CorrVal.nan)) :=
  ⟨by decide, by decide,
    C9_energy_vs_production_amended exTabFull (by decide) (by decide)⟩

theorem mem_insertMonthCol_iff (c : Col) (cs : List Col) :
    c ∈ insertMonthCol cs ↔ (c ∈ cs ∨ c = Col.month) := by
  unfold insertMonthCol
  split_ifs with h
  · constructor
    · exact Or.inl
    · rintro (hc | rfl)
      exacts [hc, h]
  · simp [List.mem_append]

/-- C10: every aggregation except MonthlyProduction returns the input
table unchanged (in particular ProductivityPerOperator works on a copy and
adds nothing to the input); MonthlyProduction leaves every original column
of every row unchanged and only adds the derived Month column. -/
theorem C10_frame_effects (t : Table) :
    (∀ t' r, generate_units_by_product t = .ok (t', r) → t' = t)
    ∧ (∀ t' r, generate_avg_defects_by_shift t = .ok (t', r) → t' = t)
    ∧ (∀ t' r, generate_avg_cost_summary t = .ok (t', r) → t' = t)
    ∧ (∀ t' r, generate_energy_vs_production t = .ok (t', r) → t' = t)
    ∧ (∀ t' r, generate_defect_rate_by_product t = .ok (t', r) → t' = t)
    ∧ (∀ t' r, generate_productivity_per_operator t = .ok (t', r) → t' = t)
    ∧ (∀ t' r, generate_monthly_production t = .ok (t', r) →
        t'.rows.map stripMonth = t.rows.map stripMonth
          ∧ ∀ c : Col, c ∈ t'.cols ↔ (c ∈ t.cols ∨ c = Col.month)) := by
  refine ⟨?_, ?_, ?_, ?_, ?_, ?_, ?_⟩
  · intro t' r h
    unfold generate_units_by_product at h
    split_ifs at h
    all_goals first
      | exact Except.noConfusion h
      | (injection h with h1; injection h1 with h2 h3; exact h2.symm)
  · intro t' r h
    unfold generate_avg_defects_by_shift at h
    split_ifs at h
    all_goals first
      | exact Except.noConfusion h
      | (injection h with h1; injection h1 with h2 h3; exact h2.symm)
  · intro t' r h
    unfold generate_avg_cost_summary at h
    injection h with h1
    injection h1 with h2 h3
    exact h2.symm
  · intro t' r h
    unfold generate_energy_vs_production at h
    split_ifs at h
    all_goals first
      | exact Except.noConfusion h
      | (injection h with h1; injection h1 with h2 h3; exact h2.symm)
  · intro t' r h
    unfold generate_defect_rate_by_product at h
    split_ifs at h
    all_goals first
      | exact Except.noConfusion h
      | (injection h with h1; injection h1 with h2 h3; exact h2.symm)
  · intro t' r h
    unfold generate_productivity_per_operator at h
    split_ifs at h
    all_goals first
      | exact Except.noConfusion h
      | (injection h with h1; injection h1 with h2 h3; exact h2.symm)
  · intro t' r h
    unfold generate_monthly_production at h
    split_ifs at h
    injection h with h1
    injection h1 with h2 h3
    rw [← h2]
    constructor
    · show ((t.rows.map fun r => { r with month := r.date }).map stripMonth)
        = t.rows.map stripMonth
      rw [List.map_map]
      rfl
    · intro c
      exact mem_insertMonthCol_iff c t.cols

theorem C10_frame_effects_witness :
    ((monthlyTab exTabFull).rows.map stripMonth
        = exTabFull.rows.map stripMonth
      ∧ ∀ c : Col, c ∈ (monthlyTab exTabFull).cols
          ↔ (c ∈ exTabFull.cols ∨ c = Col.month))
    ∧ exTabFull = exTabFull :=
  ⟨(C10_frame_effects exTabFull).2.2.2.2.2.2 (monthlyTab exTabFull)
      (groupAgg monthLe (fun r => r.month)
        (fun g => (g.map (fun r => r.unitsProduced)).sum) (monthlyTab exTabFull).rows)
      (by decide),
    (C10_frame_effects exTabFull).1 exTabFull
      (groupAgg strLe (fun r => r.productType)
        (fun g => (g.map (fun r => r.unitsProduced)).sum) exTabFull.rows)
      (by decide)⟩

/-- C8: for every input table carrying all required columns, the export is
a single in-memory workbook of exactly seven sheets, in the fixed order
"Units by Product", "Defects by Shift", "Monthly Production",
"Cost Summary", "Energy vs Prod", "Defect Rate (%)", "Productivity", each
holding the headers and rows (in order) of the corresponding report table,
offered with the OOXML spreadsheet MIME type and suggested filename
`agentic_report.xlsx`. -/
theorem C8_export_artifact (t : Table)
    (hd : Col.date ∈ t.cols) (hp : Col.productType ∈ t.cols)
    (hs : Col.shift ∈ t.cols) (hu : Col.unitsProduced ∈ t.cols)
    (hde : Col.defects ∈ t.cols) (ho : Col.operatorCount ∈ t.cols)
    (hh : Col.productionTimeHours ∈ t.cols)
    (he : Col.energyConsumption ∈ t.cols) :
    ∃ (r1 : List (String × Nat)) (r2 : List (String × Rat))
      (r3 : List (Option (Nat × Nat) × Nat)) (r4 : List (String × EVal))
      (r5 : List (String × CorrVal × CorrVal)) (r6 : List (String × EVal))
      (r7 : List ((String × String) × EVal)),
      generate_units_by_product t = .ok (t, r1)
      ∧ generate_avg_defects_by_shift t = .ok (t, r2)
      ∧ generate_monthly_production t = .ok (monthlyTab t, r3)
      ∧ generate_avg_cost_summary (monthlyTab t) = .ok (monthlyTab t, r4)
      ∧ generate_energy_vs_production (monthlyTab t) = .ok (monthlyTab t, r5)
      ∧ generate_defect_rate_by_product (monthlyTab t) = .ok (monthlyTab t, r6)
      ∧ generate_productivity_per_operator (monthlyTab t) = .ok (monthlyTab t, r7)
      ∧ exportReport t = .ok
          { sheets :=
              [("Units by Product", sheetUnits r1),
               ("Defects by Shift", sheetDefects r2),
               ("Monthly Production", sheetMonthly r3),
               ("Cost Summary", sheetCost r4),
               ("Energy vs Prod", sheetEnergy r5),
               ("Defect Rate (%)", sheetRate r6),
               ("Productivity", sheetProductivity r7)],
            mime := "application/vnd.openxmlformats-officedocument.spreadsheetml.sheet",
            fileName := "agentic_report.xlsx" } := by
  have hs' : Col.shift ∈ (monthlyTab t).cols := mem_insertMonthCol hs
  have hp' : Col.productType ∈ (monthlyTab t).cols := mem_insertMonthCol hp
  have hu' : Col.unitsProduced ∈ (monthlyTab t).cols := mem_insertMonthCol hu
  have hde' : Col.defects ∈ (monthlyTab t).cols := mem_insertMonthCol hde
  have ho' : Col.operatorCount ∈ (monthlyTab t).cols := mem_insertMonthCol ho
  have hh' : Col.productionTimeHours ∈ (monthlyTab t).cols := mem_insertMonthCol hh
  have he' : Col.energyConsumption ∈ (monthlyTab t).cols := mem_insertMonthCol he
  have h1 : generate_units_by_product t = .ok (t, groupAgg strLe
      (fun r => r.productType) (fun g => (g.map (fun r => r.unitsProduced)).sum)
      t.rows) := by
    simp [generate_units_by_product, hp, hu]
  have h2 : generate_avg_defects_by_shift t = .ok (t, groupAgg strLe
      (fun r => r.shift)
      (fun g => (g.map (fun r => (r.defects : Rat))).sum / (g.length : Rat))
      t.rows) := by
    simp [generate_avg_defects_by_shift, hs, hde]
  have h3 : generate_monthly_production t = .ok (monthlyTab t,
      groupAgg monthLe (fun r => r.month)
        (fun g => (g.map (fun r => r.unitsProduced)).sum) (monthlyTab t).rows) := by
    rw [generate_monthly_production, if_pos hd, if_pos hu']
  have h4 : generate_avg_cost_summary (monthlyTab t) = .ok (monthlyTab t,
      (if Col.materialCost ∈ (monthlyTab t).cols then
        [("Material Cost Per Unit",
          meanR ((monthlyTab t).rows.map fun r => r.materialCost))]
       else []) ++
      (if Col.labourCost ∈ (monthlyTab t).cols then
        [("Labour Cost Per Hour",
          meanR ((monthlyTab t).rows.map fun r => r.labourCost))]
       else [])) := rfl
  have h5 : generate_energy_vs_production (monthlyTab t) = .ok (monthlyTab t,
      [("Energy Consumption kWh",
        corrEntry ((monthlyTab t).rows.map fun r => r.energyConsumption)
          ((monthlyTab t).rows.map fun r => r.energyConsumption),
        corrEntry ((monthlyTab t).rows.map fun r => r.energyConsumption)
          ((monthlyTab t).rows.map fun r => (r.unitsProduced : Rat))),
       ("Units Produced",
        corrEntry ((monthlyTab t).rows.map fun r => (r.unitsProduced : Rat))
          ((monthlyTab t).rows.map fun r => r.energyConsumption),
        corrEntry ((monthlyTab t).rows.map fun r => (r.unitsProduced : Rat))
          ((monthlyTab t).rows.map fun r => (r.unitsProduced : Rat)))]) := by
    rw [generate_energy_vs_production, if_pos he', if_pos hu']
  have h6 : generate_defect_rate_by_product (monthlyTab t) = .ok (monthlyTab t,
      groupAgg strLe (fun r => r.productType)
        (fun g => mulE (divE ((g.map (fun r => (r.defects : Rat))).sum)
          ((g.map (fun r => (r.unitsProduced : Rat))).sum)) 100)
        (monthlyTab t).rows) := by
    rw [generate_defect_rate_by_product, if_pos hp', if_pos hu', if_pos hde']
  have h7 : generate_productivity_per_operator (monthlyTab t) = .ok (monthlyTab t,
      groupAgg (pairLe strLe strLe) (fun r => (r.productType, r.shift))
        (fun g => meanE (g.map productivityVal)) (monthlyTab t).rows) := by
    rw [generate_productivity_per_operator, if_pos hu', if_pos ho', if_pos hh',
      if_pos hp', if_pos hs']
  refine ⟨_, _, _, _, _, _, _, h1, h2, h3, h4, h5, h6, h7, ?_⟩
  unfold exportReport runReportPass
  rw [if_pos hd]
  simp only [h1, h2, h3, h4, h5, h6, h7, Except.bind, bind, Except.map]

theorem C8_export_artifact_witness :
    Col.date ∈ exTabFull.cols ∧ Col.productType ∈ exTabFull.cols ∧
      Col.shift ∈ exTabFull.cols ∧ Col.unitsProduced ∈ exTabFull.cols ∧
      Col.defects ∈ exTabFull.cols ∧ Col.operatorCount ∈ exTabFull.cols ∧
      Col.productionTimeHours ∈ exTabFull.cols ∧
      Col.energyConsumption ∈ exTabFull.cols ∧
      (∃ (r1 : List (String × Nat)) (r2 : List (String × Rat))
        (r3 : List (Option (Nat × Nat) × Nat)) (r4 : List (String × EVal))
        (r5 : List (String × CorrVal × CorrVal)) (r6 : List (String × EVal))
        (r7 : List ((String × String) × EVal)),
        generate_units_by_product exTabFull = .ok (exTabFull, r1)
        ∧ generate_avg_defects_by_shift exTabFull = .ok (exTabFull, r2)
        ∧ generate_monthly_production exTabFull = .ok (monthlyTab exTabFull, r3)
        ∧ generate_avg_cost_summary (monthlyTab exTabFull)
            = .ok (monthlyTab exTabFull, r4)
        ∧ generate_energy_vs_production (monthlyTab exTabFull)
            = .ok (monthlyTab exTabFull, r5)
        ∧ generate_defect_rate_by_product (monthlyTab exTabFull)
            = .ok (monthlyTab exTabFull, r6)
        ∧ generate_productivity_per_operator (monthlyTab exTabFull)
            = .ok (monthlyTab exTabFull, r7)
        ∧ exportReport exTabFull = .ok
            { sheets :=
                [("Units by Product", sheetUnits r1),
                 ("Defects by Shift", sheetDefects r2),
                 ("Monthly Production", sheetMonthly r3),
                 ("Cost Summary", sheetCost r4),
                 ("Energy vs Prod", sheetEnergy r5),
                 ("Defect Rate (%)", sheetRate r6),
                 ("Productivity", sheetProductivity r7)],
              mime := "application/vnd.openxmlformats-officedocument.spreadsheetml.sheet",
              fileName := "agentic_report.xlsx" }) :=
  ⟨by decide, by decide, by decide, by decide, by decide, by decide, by decide,
    by decide,
    C8_export_artifact exTabFull (by decide) (by decide) (by decide) (by decide)
      (by decide) (by decide) (by decide) (by decide)⟩
